import Mathlib

/-!
Verification of the Archipelago-OBS bridge (event normalization and
animation sequencing core).

The development shallowly embeds the relevant parts of
`archipelago_obs_standalone.py` and `archipelago_obs_bridge.py`:

* Python strings are modelled as `String` / `List Char`; `str.split(sep)[0]`
  is modelled by `takeUntil`, `str.strip()` by `pyStrip` (ASCII whitespace).
* Python floats are modelled as real numbers; `x ** y` is `Real.rpow`.
* The OBS WebSocket client is modelled as a trace of issued calls
  (`ObsCall`); `asyncio.sleep` appears in the trace as `ObsCall.sleep`.
* File-system probes (`Path.exists`) are modelled by an oracle
  `fs : String → Bool`; scene membership probes (`get_scene_item_list`
  followed by a name search) by `Env.sceneHas`.
* Concurrent `asyncio` tasks of a single ticker update are modelled by the
  `Interleave` relation on their call traces.
-/

/-! ### Python string helpers

`pyIsSpace` models the ASCII part of Python's `str.strip()` whitespace set
(the source only ever feeds it ASCII log lines). -/

def pyIsSpace (c : Char) : Bool :=
  c == ' ' || c == '\t' || c == '\n' || c == '\r' || c == '\x0b' || c == '\x0c'

/-- Drop trailing characters satisfying `p` (the right half of `strip()`). -/
def dropTrailing (p : Char → Bool) (l : List Char) : List Char :=
  (l.reverse.dropWhile p).reverse

/-- Python `str.strip()` on a character list. -/
def pyStrip (l : List Char) : List Char :=
  dropTrailing pyIsSpace (l.dropWhile pyIsSpace)

/-- The longest prefix of `l` that stops right before the first occurrence of
`sep`; this models Python's `s.split(sep)[0]` for a nonempty separator. -/
def takeUntil (sep : List Char) : List Char → List Char
  | [] => []
  | c :: cs => if sep.isPrefixOf (c :: cs) then [] else c :: takeUntil sep cs

/-- `extract_player_name` from `archipelago_obs_standalone.py`: the chain
`split('__')[0].strip()`, then `split('(')[0].strip()`, then
`split('[')[0].strip()`, written innermost-first. -/
def extractCore (s : List Char) : List Char :=
  pyStrip (takeUntil ['['] (pyStrip (takeUntil ['('] (pyStrip (takeUntil ['_', '_'] s)))))

/-- String-level wrapper of `extract_player_name`. -/
def extract_player_name (s : String) : String :=
  ⟨extractCore s.data⟩

/-! ### Lemmas about the string helpers -/

theorem takeUntil_prefix_of (sep l : List Char) : takeUntil sep l <+: l := by
  induction l with
  | nil => simp [takeUntil]
  | cons c cs ih =>
    simp only [takeUntil]
    split
    · exact List.nil_prefix
    · exact (List.prefix_cons_inj c).mpr ih

theorem subOfCons {sep l : List Char} {a : Char} (h : sep <:+: l) :
    sep <:+: a :: l :=
  List.infix_cons h

theorem subConsSplit {sep l : List Char} {a : Char} (h : sep <:+: a :: l) :
    sep <+: a :: l ∨ sep <:+: l := by
  obtain ⟨s, t, hst⟩ := h
  cases s with
  | nil => exact Or.inl ⟨t, by simpa using hst⟩
  | cons s0 s' =>
    right
    have : s' ++ sep ++ t = l := by
      have := congrArg List.tail hst
      simpa using this
    exact ⟨s', t, this⟩

theorem takeUntil_no_sep {sep : List Char} (hne : sep ≠ []) (l : List Char) :
    ¬ sep <:+: takeUntil sep l := by
  induction l with
  | nil =>
    intro h
    exact hne (List.eq_nil_of_infix_nil (by simpa [takeUntil] using h))
  | cons c cs ih =>
    simp only [takeUntil]
    split
    · intro h
      exact hne (List.eq_nil_of_infix_nil h)
    · rename_i hnp
      intro h
      rcases subConsSplit h with hp | hi
      · exact hnp (List.isPrefixOf_iff_prefix.mpr
          (hp.trans ((List.prefix_cons_inj c).mpr (takeUntil_prefix_of sep cs))))
      · exact ih hi

theorem takeUntil_eq_self {sep l : List Char} (h : ¬ sep <:+: l) :
    takeUntil sep l = l := by
  induction l with
  | nil => simp [takeUntil]
  | cons c cs ih =>
    simp only [takeUntil]
    rw [if_neg, ih]
    · intro hi
      exact h (subOfCons hi)
    · intro hp
      exact h (List.isPrefixOf_iff_prefix.mp hp).isInfix

theorem singletonSubIffMem {c : Char} {l : List Char} : [c] <:+: l ↔ c ∈ l := by
  constructor
  · rintro ⟨s, t, rfl⟩
    simp
  · intro h
    obtain ⟨s, t, rfl⟩ := List.append_of_mem h
    exact ⟨s, t, by simp⟩

theorem dropWhile_head_false {p : Char → Bool} {l : List Char} {c : Char}
    {t : List Char} (h : l.dropWhile p = c :: t) : p c = false := by
  induction l with
  | nil => simp [List.dropWhile] at h
  | cons a as ih =>
    rw [List.dropWhile_cons] at h
    by_cases hp : p a
    · exact ih (by simpa [hp] using h)
    · rw [if_neg (by simpa using hp)] at h
      obtain ⟨rfl, -⟩ := List.cons.inj h
      simpa using hp

theorem dropWhile_eq_self_of_head {p : Char → Bool} {l : List Char}
    (h : ∀ c t, l = c :: t → p c = false) : l.dropWhile p = l := by
  cases l with
  | nil => simp
  | cons c t => simp [List.dropWhile_cons, h c t rfl]

theorem dropWhile_idem (p : Char → Bool) (l : List Char) :
    (l.dropWhile p).dropWhile p = l.dropWhile p := by
  apply dropWhile_eq_self_of_head
  intro c t h
  exact dropWhile_head_false h

theorem dropTrailing_prefix_of (p : Char → Bool) (l : List Char) :
    dropTrailing p l <+: l := by
  unfold dropTrailing
  obtain ⟨s, hs⟩ := l.reverse.dropWhile_suffix p
  refine ⟨s.reverse, ?_⟩
  calc (l.reverse.dropWhile p).reverse ++ s.reverse
      = (s ++ l.reverse.dropWhile p).reverse := (List.reverse_append _ _).symm
  _ = l := by rw [hs, List.reverse_reverse]

theorem dropTrailing_idem (p : Char → Bool) (x : List Char) :
    dropTrailing p (dropTrailing p x) = dropTrailing p x := by
  unfold dropTrailing
  rw [List.reverse_reverse, dropWhile_idem]

theorem dropWhile_of_dropTrailing {p : Char → Bool} {l : List Char}
    (hl : l.dropWhile p = l) : (dropTrailing p l).dropWhile p = dropTrailing p l := by
  apply dropWhile_eq_self_of_head
  intro c t h
  obtain ⟨s, hs⟩ := dropTrailing_prefix_of p l
  rw [h] at hs
  have : l.dropWhile p = c :: (t ++ s) := by
    rw [hl, ← hs]
    simp
  exact dropWhile_head_false this

theorem pyStrip_sub (l : List Char) : pyStrip l <:+: l := by
  unfold pyStrip
  exact ((dropTrailing_prefix_of pyIsSpace (l.dropWhile pyIsSpace)).isInfix).trans
    (l.dropWhile_suffix pyIsSpace).isInfix

theorem pyStrip_idem (l : List Char) : pyStrip (pyStrip l) = pyStrip l := by
  unfold pyStrip
  rw [dropWhile_of_dropTrailing (dropWhile_idem pyIsSpace l), dropTrailing_idem]

theorem noSub_of_sub {sep a b : List Char} (hab : a <:+: b) (h : ¬ sep <:+: b) :
    ¬ sep <:+: a := fun hs => h (hs.trans hab)

/-- The three delimiter-freeness facts plus strippedness of an extraction
result. -/
theorem extractCore_clean (s : List Char) :
    ¬ ['_', '_'] <:+: extractCore s ∧ ('(' ∉ extractCore s) ∧
      ('[' ∉ extractCore s) ∧ pyStrip (extractCore s) = extractCore s := by
  set p1 := pyStrip (takeUntil ['_', '_'] s) with hp1
  set p2 := pyStrip (takeUntil ['('] p1) with hp2
  have hr : extractCore s = pyStrip (takeUntil ['['] p2) := rfl
  have hsub3 : extractCore s <:+: takeUntil ['['] p2 := hr ▸ pyStrip_sub _
  have hsub2 : extractCore s <:+: takeUntil ['('] p1 :=
    (hsub3.trans (takeUntil_prefix_of _ _).isInfix).trans (pyStrip_sub _)
  have hsub1 : extractCore s <:+: takeUntil ['_', '_'] s :=
    (hsub2.trans (takeUntil_prefix_of _ _).isInfix).trans (pyStrip_sub _)
  refine ⟨?_, ?_, ?_, ?_⟩
  · exact noSub_of_sub hsub1 (takeUntil_no_sep (by simp) s)
  · intro hmem
    exact (noSub_of_sub hsub2 (takeUntil_no_sep (by simp) p1))
      (singletonSubIffMem.mpr hmem)
  · intro hmem
    exact (noSub_of_sub hsub3 (takeUntil_no_sep (by simp) p2))
      (singletonSubIffMem.mpr hmem)
  · rw [hr]
    exact pyStrip_idem _

/-- Canonicalization is stable: re-extracting an already-extracted name
changes nothing. -/
theorem extractCore_idem (s : List Char) :
    extractCore (extractCore s) = extractCore s := by
  obtain ⟨h1, h2, h3, h4⟩ := extractCore_clean s
  conv_lhs => rw [extractCore]
  rw [takeUntil_eq_self h1, h4,
    takeUntil_eq_self (fun hs => h2 (singletonSubIffMem.mp hs)), h4,
    takeUntil_eq_self (fun hs => h3 (singletonSubIffMem.mp hs)), h4]

/-- Cutting at `'__'` in `a ++ "__" ++ b` recovers `a`, provided no earlier
occurrence of `"__"` exists (no `"__"` inside `a` and `a` does not end in
`'_'`; both are packaged as `¬ "__" <:+: a ++ "_"`). -/
theorem takeUntil_append_sep {a : List Char} (b : List Char)
    (h : ¬ ['_', '_'] <:+: (a ++ ['_'])) :
    takeUntil ['_', '_'] (a ++ ['_', '_'] ++ b) = a := by
  induction a with
  | nil => simp [takeUntil, List.isPrefixOf]
  | cons c a' ih =>
    have hstep : takeUntil ['_', '_'] (c :: (a' ++ ['_', '_'] ++ b)) =
        c :: takeUntil ['_', '_'] (a' ++ ['_', '_'] ++ b) := by
      rw [takeUntil, if_neg]
      intro hp
      have hpre := List.isPrefixOf_iff_prefix.mp hp
      obtain ⟨t, ht⟩ := hpre
      obtain ⟨rfl, ht'⟩ := List.cons.inj ht
      cases a' with
      | nil =>
        exact h ⟨[], [], by simp⟩
      | cons d a'' =>
        obtain ⟨rfl, -⟩ := List.cons.inj ht'
        exact h ⟨[], a'' ++ ['_'], by simp⟩
    calc takeUntil ['_', '_'] (c :: a' ++ ['_', '_'] ++ b)
        = c :: takeUntil ['_', '_'] (a' ++ ['_', '_'] ++ b) := hstep
    _ = c :: a' := by
        rw [ih]
        intro hsub
        exact h (subOfCons hsub)

/-- Over a clean leading segment, `extract_player_name` returns exactly that
segment: the claim's "strip at the first `'__'`, keep the leading name". -/
theorem extractCore_append (a b : List Char)
    (hu : ¬ ['_', '_'] <:+: (a ++ ['_'])) (hp : '(' ∉ a) (hb : '[' ∉ a)
    (hs : pyStrip a = a) :
    extractCore (a ++ ['_', '_'] ++ b) = a := by
  unfold extractCore
  rw [takeUntil_append_sep b hu, hs,
    takeUntil_eq_self (fun hx => hp (singletonSubIffMem.mp hx)), hs,
    takeUntil_eq_self (fun hx => hb (singletonSubIffMem.mp hx)), hs]

/-! ### Name resolution (`archipelago_obs_bridge.py`)

`item_names` / `location_names` are attributes that may be absent
(`hasattr`), modelled by `Option`.  Each is a dict from game name to a dict
from numeric id to name; Python dict iteration order is insertion order, so
both levels are modelled as association lists. -/

/-- `item_id in game_items` followed by `game_items[item_id]`. -/
def tableGet (tbl : List (Int × String)) (id : Int) : Option String :=
  (tbl.find? (fun p => p.1 == id)).map (fun p => p.2)

/-- The `for game_items in self.item_names.values()` loop: first table
containing the id wins. -/
def lookupGames : List (String × List (Int × String)) → Int → Option String
  | [], _ => none
  | (_, tbl) :: rest, id =>
    match tableGet tbl id with
    | some n => some n
    | none => lookupGames rest id

/-- `resolve_item_name` from `archipelago_obs_bridge.py`. -/
def resolve_item_name (item_names : Option (List (String × List (Int × String))))
    (item_id : Int) : String :=
  match item_names with
  | none => "Item_" ++ toString item_id
  | some tables =>
    match lookupGames tables item_id with
    | some n => n
    | none => "Item_" ++ toString item_id

/-- `resolve_location_name` from `archipelago_obs_bridge.py`. -/
def resolve_location_name (location_names : Option (List (String × List (Int × String))))
    (location_id : Int) : String :=
  match location_names with
  | none => "Location_" ++ toString location_id
  | some tables =>
    match lookupGames tables location_id with
    | some n => n
    | none => "Location_" ++ toString location_id

theorem lookupGames_none {tables : List (String × List (Int × String))} {id : Int}
    (h : ∀ g ∈ tables, tableGet g.2 id = none) : lookupGames tables id = none := by
  induction tables with
  | nil => rfl
  | cons g rest ih =>
    obtain ⟨gn, tbl⟩ := g
    have hg : tableGet tbl id = none := h ⟨gn, tbl⟩ (by simp)
    simp only [lookupGames, hg]
    exact ih (fun x hx => h x (by simp [hx]))

theorem lookupGames_first {pre : List (String × List (Int × String))}
    {g : String × List (Int × String)} {post : List (String × List (Int × String))}
    {id : Int} {n : String} (hpre : ∀ x ∈ pre, tableGet x.2 id = none)
    (hg : tableGet g.2 id = some n) :
    lookupGames (pre ++ g :: post) id = some n := by
  induction pre with
  | nil =>
    obtain ⟨gn, tbl⟩ := g
    simp only [List.nil_append, lookupGames]
    rw [hg]
  | cons x rest ih =>
    obtain ⟨xn, xtbl⟩ := x
    have hx : tableGet xtbl id = none := hpre ⟨xn, xtbl⟩ (by simp)
    simp only [List.cons_append, lookupGames, hx]
    exact ih (fun y hy => hpre y (by simp [hy]))

/-! ### Image path lookup (`archipelago_obs_standalone.py`)

The file system is an oracle `fs : String → Bool`; directories come from
`setup_image_directories`.  `re.sub(r'[^\w\-_\.]', '_', name)` is modelled
over ASCII (`Char.isAlphanum` plus `_`, `-`, `.`). -/

structure ImageDirs where
  players : String
  events : String
  items : String
  locations : String

/-- `re.sub(r'[^\w\-_\.]', '_', name)` (ASCII fragment of `\w`). -/
def sanitize_name (s : String) : String :=
  ⟨s.data.map (fun c =>
    if c.isAlphanum || c == '_' || c == '-' || c == '.' then c else '_')⟩

def pathJoin (d f : String) : String := d ++ "/" ++ f

/-- `get_player_image`: exact sanitized name, then lowercased sanitized name,
then the shared default, else `None`. -/
def get_player_image (fs : String → Bool) (dirs : ImageDirs)
    (player_name : String) : Option String :=
  let safe := sanitize_name player_name
  let p1 := pathJoin dirs.players (safe ++ ".png")
  if fs p1 then some p1 else
  let p2 := pathJoin dirs.players (safe.toLower ++ ".png")
  if fs p2 then some p2 else
  let pd := pathJoin dirs.players "default_player.png"
  if fs pd then some pd else none

/-- `get_event_image`: by event type name, no fallback. -/
def get_event_image (fs : String → Bool) (dirs : ImageDirs)
    (event_type : String) : Option String :=
  let p := pathJoin dirs.events (event_type ++ ".png")
  if fs p then some p else none

/-- `get_item_image`. -/
def get_item_image (fs : String → Bool) (dirs : ImageDirs)
    (item_name : String) : Option String :=
  let safe := sanitize_name item_name
  let p1 := pathJoin dirs.items (safe ++ ".png")
  if fs p1 then some p1 else
  let p2 := pathJoin dirs.items (safe.toLower ++ ".png")
  if fs p2 then some p2 else
  let pd := pathJoin dirs.items "default_item.png"
  if fs pd then some pd else none

/-- `get_location_image`. -/
def get_location_image (fs : String → Bool) (dirs : ImageDirs)
    (location_name : String) : Option String :=
  let safe := sanitize_name location_name
  let p1 := pathJoin dirs.locations (safe ++ ".png")
  if fs p1 then some p1 else
  let p2 := pathJoin dirs.locations (safe.toLower ++ ".png")
  if fs p2 then some p2 else
  let pd := pathJoin dirs.locations "default_location.png"
  if fs pd then some pd else none

/-- Spec-side lookup: the first path of an ordered candidate list that exists
("lookup by sanitized name, case-insensitive fallback, final shared default
fallback" — the candidate list makes the order explicit). -/
def lookupCandidates (fs : String → Bool) (paths : List String) : Option String :=
  paths.find? fs

theorem get_player_image_eq_candidates (fs : String → Bool) (dirs : ImageDirs)
    (n : String) :
    get_player_image fs dirs n =
      lookupCandidates fs
        [pathJoin dirs.players (sanitize_name n ++ ".png"),
         pathJoin dirs.players ((sanitize_name n).toLower ++ ".png"),
         pathJoin dirs.players "default_player.png"] := by
  simp only [get_player_image, lookupCandidates, List.find?]
  rcases h1 : fs (pathJoin dirs.players (sanitize_name n ++ ".png")) <;>
    rcases h2 : fs (pathJoin dirs.players ((sanitize_name n).toLower ++ ".png")) <;>
      rcases h3 : fs (pathJoin dirs.players "default_player.png") <;>
        simp [h1, h2, h3]

theorem get_item_image_eq_candidates (fs : String → Bool) (dirs : ImageDirs)
    (n : String) :
    get_item_image fs dirs n =
      lookupCandidates fs
        [pathJoin dirs.items (sanitize_name n ++ ".png"),
         pathJoin dirs.items ((sanitize_name n).toLower ++ ".png"),
         pathJoin dirs.items "default_item.png"] := by
  simp only [get_item_image, lookupCandidates, List.find?]
  rcases h1 : fs (pathJoin dirs.items (sanitize_name n ++ ".png")) <;>
    rcases h2 : fs (pathJoin dirs.items ((sanitize_name n).toLower ++ ".png")) <;>
      rcases h3 : fs (pathJoin dirs.items "default_item.png") <;>
        simp [h1, h2, h3]

theorem get_location_image_eq_candidates (fs : String → Bool) (dirs : ImageDirs)
    (n : String) :
    get_location_image fs dirs n =
      lookupCandidates fs
        [pathJoin dirs.locations (sanitize_name n ++ ".png"),
         pathJoin dirs.locations ((sanitize_name n).toLower ++ ".png"),
         pathJoin dirs.locations "default_location.png"] := by
  simp only [get_location_image, lookupCandidates, List.find?]
  rcases h1 : fs (pathJoin dirs.locations (sanitize_name n ++ ".png")) <;>
    rcases h2 : fs (pathJoin dirs.locations ((sanitize_name n).toLower ++ ".png")) <;>
      rcases h3 : fs (pathJoin dirs.locations "default_location.png") <;>
        simp [h1, h2, h3]

/-! ### Canonical event records (`handle_parsed_event`)

`event_data` is a Python dict; keys that a branch may leave unset are
`Option` fields (`'player_name' in event_data` becomes `isSome`).  The
wall-clock `timestamp` entry is omitted (external real time). -/

structure EventData where
  event_type : String := ""
  raw_line : String := ""
  receiving_player : Option String := none
  sending_player : Option String := none
  item_name : Option String := none
  location_name : Option String := none
  player_name : Option String := none
  hint_text : Option String := none
  message : Option String := none
  timestamp_str : Option String := none
  text : Option String := none
  ticker_text : Option String := none

/-- `handle_parsed_event` from `archipelago_obs_standalone.py`: build the
event record for one matched pattern.  `groups.getD i ""` models `groups[i]`
(the regex match guarantees the arity, so the default is never observed for
well-formed calls). -/
def handle_parsed_event (event_type : String) (groups : List String)
    (raw_line : String) : EventData :=
  let g := fun i => groups.getD i ""
  let base : EventData := { event_type := event_type, raw_line := raw_line }
  if event_type == "item_received" then
    let receiving_player := extract_player_name (g 0)
    let sending_player := extract_player_name (g 2)
    { base with
      receiving_player := some receiving_player
      item_name := some (g 1)
      sending_player := some sending_player
      text := some (receiving_player ++ " received " ++ g 1 ++ " from " ++ sending_player)
      ticker_text := some (receiving_player ++ " got " ++ g 1 ++ "!")
      player_name := some receiving_player }
  else if event_type == "item_sent" then
    let sending_player := extract_player_name (g 0)
    let receiving_player := extract_player_name (g 2)
    { base with
      sending_player := some sending_player
      item_name := some (g 1)
      receiving_player := some receiving_player
      text := some (sending_player ++ " sent " ++ g 1 ++ " to " ++ receiving_player)
      ticker_text := some (sending_player ++ " sent " ++ g 1 ++ "!")
      player_name := some sending_player }
  else if event_type == "location_checked" then
    let player_name := extract_player_name (g 0)
    { base with
      player_name := some player_name
      location_name := some (g 1)
      text := some (player_name ++ " checked " ++ g 1)
      ticker_text := some (player_name ++ " found " ++ g 1 ++ "!") }
  else if event_type == "player_joined" then
    let player_name := extract_player_name (g 0)
    { base with
      player_name := some player_name
      text := some (player_name ++ " joined the game")
      ticker_text := some (player_name ++ " joined!") }
  else if event_type == "player_left" then
    let player_name := extract_player_name (g 0)
    { base with
      player_name := some player_name
      text := some (player_name ++ " left the game")
      ticker_text := some (player_name ++ " left") }
  else if event_type == "goal_completed" then
    let player_name := extract_player_name (g 0)
    { base with
      player_name := some player_name
      text := some (player_name ++ " completed their goal!")
      ticker_text := some ("🎉 " ++ player_name ++ " COMPLETED THEIR GOAL! 🎉") }
  else if event_type == "hint" then
    { base with
      hint_text := some (g 0)
      text := some ("Hint: " ++ g 0)
      ticker_text := some ("💡 Hint: " ++ g 0) }
  else if event_type == "chat" then
    let player_name := extract_player_name (g 1)
    { base with
      timestamp_str := some (g 0)
      player_name := some player_name
      message := some (g 2)
      text := some (player_name ++ ": " ++ g 2)
      ticker_text := some (player_name ++ ": " ++ g 2) }
  else if event_type == "server_message" then
    { base with
      message := some (g 0)
      text := some (g 0)
      ticker_text := some (g 0) }
  else
    { base with text := some raw_line, ticker_text := some raw_line }

/-! ### Line parsing and dispatch (`parse_and_trigger_events`)

A rule is an event-type tag plus a matcher modelling `pattern.search`
(returning the capture groups on success).  The concrete regexes live at the
external `re` boundary; the dispatch loop and its first-match policy are what
is embedded.  The `patterns` dict preserves insertion order (Python 3.7+), so
the rule list order below is the declared order of
`process_archipelago_output`. -/

structure PatternRule where
  event_type : String
  pattern : String → Option (List String)

/-- The declared rule order of the `patterns` dict. -/
def declared_pattern_order : List String :=
  ["item_received", "item_sent", "location_checked", "player_joined",
   "player_left", "goal_completed", "hint", "chat", "server_message",
   "release", "collect", "connected", "connection_failed"]

/-- Substring test used by the keyword fallback (`keyword in line.lower()`). -/
def containsSeq (needle : List Char) : List Char → Bool
  | [] => needle.isEmpty
  | c :: cs => needle.isPrefixOf (c :: cs) || containsSeq needle cs

def keyword_list : List String := ["item", "location", "player", "goal", "hint", "chat"]

def keywordHit (line : String) : Bool :=
  keyword_list.any (fun k => containsSeq k.data line.toLower.data)

/-- One emitted event: the arguments of a `handle_parsed_event` /
`trigger_obs_event` call made by the loop. -/
structure Emitted where
  event_type : String
  groups : List String
  raw_line : String

/-- `parse_and_trigger_events`: try the rules in order, first match wins and
the loop returns; if none match, the keyword heuristic may emit one
`raw_message` event. -/
def parse_and_trigger_events : List PatternRule → String → List Emitted
  | [], line => if keywordHit line then [⟨"raw_message", [], line⟩] else []
  | r :: rs, line =>
    match r.pattern line with
    | some gs => [⟨r.event_type, gs, line⟩]
    | none => parse_and_trigger_events rs line

theorem parse_and_trigger_length (rules : List PatternRule) (line : String) :
    (parse_and_trigger_events rules line).length ≤ 1 := by
  induction rules with
  | nil =>
    by_cases h : keywordHit line <;> simp [parse_and_trigger_events, h]
  | cons r rs ih =>
    simp only [parse_and_trigger_events]
    rcases h : r.pattern line with - | gs
    · exact ih
    · simp

/-- If the rule at index `j` matches, the loop's result is the singleton built
from the first matching rule, whose index is at most `j`. -/
theorem parse_and_trigger_first_match (rules : List PatternRule) (line : String) :
    ∀ (j : ℕ) (rj : PatternRule), rules[j]? = some rj → (rj.pattern line).isSome →
      ∃ (k : ℕ) (rk : PatternRule) (gs : List String),
        rules[k]? = some rk ∧ k ≤ j ∧ rk.pattern line = some gs ∧
        (∀ (m : ℕ) (rm : PatternRule), m < k → rules[m]? = some rm →
          rm.pattern line = none) ∧
        parse_and_trigger_events rules line = [⟨rk.event_type, gs, line⟩] := by
  induction rules with
  | nil => intro j rj hj; simp at hj
  | cons r rs ih =>
    intro j rj hj hmatch
    rcases h : r.pattern line with - | gs0
    · cases j with
      | zero =>
        rw [List.getElem?_cons_zero] at hj
        cases hj
        rw [h] at hmatch
        simp at hmatch
      | succ j' =>
        rw [List.getElem?_cons_succ] at hj
        obtain ⟨k, rk, gs, hk, hkj, hks, hbefore, hres⟩ := ih j' rj hj hmatch
        refine ⟨k + 1, rk, gs, by simpa using hk, by omega, hks, ?_, ?_⟩
        · intro m rm hm hmg
          cases m with
          | zero =>
            rw [List.getElem?_cons_zero] at hmg
            cases hmg
            exact h
          | succ m' =>
            rw [List.getElem?_cons_succ] at hmg
            exact hbefore m' rm (by omega) hmg
        · simp only [parse_and_trigger_events, h]
          exact hres
    · refine ⟨0, r, gs0, by simp, by omega, h, by omega, ?_⟩
      simp [parse_and_trigger_events, h]

/-! ### Animation curves (`animate_text_slide_fixed`, `animate_image_pop_fixed`)

Python floats are modelled as reals; `x ** y` is `Real.rpow`.  Step counts
are naturals; `progress = step / steps` is real division. -/

/-- The per-step horizontal offset of the ease-out text slide:
`current_x = start_x + (end_x - start_x) * (1 - (1 - progress) ** easing_power)`
with `progress = step / steps`. -/
noncomputable def textSlideOffset (start_x end_x easing_power : ℝ)
    (steps step : ℕ) : ℝ :=
  let progress : ℝ := (step : ℝ) / (steps : ℝ)
  let eased_progress := 1 - (1 - progress) ^ easing_power
  start_x + (end_x - start_x) * eased_progress

/-- The animation parameters read from `animation_config` (with the working
defaults of `load_config` as Lean defaults). -/
structure AnimationConfig where
  enable_animations : Bool := true
  scene_name : String := "Main Stream"
  animation_duration : ℝ := 0.6
  animation_steps : ℕ := 25
  text_start_x : ℝ := -500
  text_end_x : ℝ := 200
  text_easing_power : ℝ := 2.5
  image_bounce_enabled : Bool := true
  image_max_overshoot : ℝ := 1.4
  image_overshoot_point : ℝ := 0.6
  image_settle_point : ℝ := 0.8
  image_intermediate_scale : ℝ := 1.1
  image_easing_power : ℝ := 2.0
  enable_celebrations : Bool := true
  celebration_scene : String := "GoalCompleted"
  celebration_duration : ℝ := 5.0
  celebration_text_source : String := "CelebrationText"

/-- The unclamped scale of `animate_image_pop_fixed` as a function of
`progress`: three-phase bounce when enabled, otherwise eased or linear. -/
noncomputable def bounceScale (ac : AnimationConfig) (progress : ℝ) : ℝ :=
  if ac.image_bounce_enabled then
    if progress < ac.image_overshoot_point then
      progress * ac.image_max_overshoot
    else if progress < ac.image_settle_point then
      let overshoot_progress :=
        (progress - ac.image_overshoot_point) /
          (ac.image_settle_point - ac.image_overshoot_point)
      ac.image_max_overshoot * (1 - overshoot_progress) +
        ac.image_intermediate_scale * overshoot_progress
    else
      let final_progress :=
        (progress - ac.image_settle_point) / (1 - ac.image_settle_point)
      let eased_progress := 1 - (1 - final_progress) ^ ac.image_easing_power
      ac.image_intermediate_scale * (1 - eased_progress) + 1.0 * eased_progress
  else if ac.image_easing_power = 1.0 then
    progress
  else
    1 - (1 - progress) ^ ac.image_easing_power

/-- The clamped per-step scale (`scale = max(0, scale)`) at `step` of
`steps`. -/
noncomputable def imageScaleAt (ac : AnimationConfig) (steps step : ℕ) : ℝ :=
  max 0 (bounceScale ac ((step : ℝ) / (steps : ℝ)))

theorem easedLe {p t1 t2 : ℝ} (hp : 0 ≤ p) (h12 : t1 ≤ t2) (h2 : t2 ≤ 1) :
    1 - (1 - t1) ^ p ≤ 1 - (1 - t2) ^ p := by
  have h := Real.rpow_le_rpow (x := 1 - t2) (y := 1 - t1) (z := p)
    (by linarith) (by linarith) hp
  linarith

theorem bounce_eval_overshoot (ac : AnimationConfig)
    (hb : ac.image_bounce_enabled = true)
    (hos : ac.image_overshoot_point < ac.image_settle_point) :
    bounceScale ac ac.image_overshoot_point = ac.image_max_overshoot := by
  simp only [bounceScale, hb, if_true]
  rw [if_neg (lt_irrefl _), if_pos hos]
  simp

theorem bounce_eval_settle (ac : AnimationConfig)
    (hb : ac.image_bounce_enabled = true)
    (hos : ac.image_overshoot_point < ac.image_settle_point) :
    bounceScale ac ac.image_settle_point = ac.image_intermediate_scale := by
  simp only [bounceScale, hb, if_true]
  rw [if_neg (not_lt.mpr (le_of_lt hos)), if_neg (lt_irrefl _)]
  simp [Real.one_rpow]

theorem bounce_eval_one (ac : AnimationConfig)
    (hb : ac.image_bounce_enabled = true)
    (hop1 : ac.image_overshoot_point < 1)
    (hsp : ac.image_settle_point < 1)
    (hpw : ac.image_easing_power ≠ 0) :
    bounceScale ac 1 = 1 := by
  simp only [bounceScale, hb, if_true]
  rw [if_neg (by linarith), if_neg (by linarith)]
  rw [div_self (by intro h; apply absurd hsp; rw [sub_eq_zero] at h; simp [← h])]
  rw [show (1:ℝ) - 1 = 0 by ring, Real.zero_rpow hpw]
  ring

theorem bounce_eval_mid (ac : AnimationConfig)
    (hb : ac.image_bounce_enabled = true) {t : ℝ}
    (h1 : ¬ t < ac.image_overshoot_point) (h2 : t < ac.image_settle_point) :
    bounceScale ac t =
      ac.image_max_overshoot *
          (1 - (t - ac.image_overshoot_point) /
            (ac.image_settle_point - ac.image_overshoot_point)) +
        ac.image_intermediate_scale *
          ((t - ac.image_overshoot_point) /
            (ac.image_settle_point - ac.image_overshoot_point)) := by
  simp only [bounceScale, hb, if_true]
  rw [if_neg h1, if_pos h2]

theorem bounce_eval_grow (ac : AnimationConfig)
    (hb : ac.image_bounce_enabled = true) {t : ℝ}
    (h1 : t < ac.image_overshoot_point) :
    bounceScale ac t = t * ac.image_max_overshoot := by
  simp only [bounceScale, hb, if_true]
  rw [if_pos h1]

theorem bounce_grow_monotone (ac : AnimationConfig)
    (hb : ac.image_bounce_enabled = true)
    (hm : 0 ≤ ac.image_max_overshoot)
    (hos : ac.image_overshoot_point < ac.image_settle_point)
    (hsp : ac.image_settle_point < 1) :
    MonotoneOn (bounceScale ac) (Set.Icc 0 ac.image_overshoot_point) := by
  intro x hx y hy hxy
  obtain ⟨hx0, hxop⟩ := hx
  obtain ⟨hy0, hyop⟩ := hy
  by_cases hyo : y < ac.image_overshoot_point
  · have hxo : x < ac.image_overshoot_point := lt_of_le_of_lt hxy hyo
    rw [bounce_eval_grow ac hb hxo, bounce_eval_grow ac hb hyo]
    exact mul_le_mul_of_nonneg_right hxy hm
  · have hyeq : y = ac.image_overshoot_point := le_antisymm hyop (not_lt.mp hyo)
    subst hyeq
    rw [bounce_eval_overshoot ac hb hos]
    by_cases hxo : x < ac.image_overshoot_point
    · rw [bounce_eval_grow ac hb hxo]
      have hx1 : x ≤ 1 := by linarith
      calc x * ac.image_max_overshoot ≤ 1 * ac.image_max_overshoot :=
        mul_le_mul_of_nonneg_right hx1 hm
      _ = ac.image_max_overshoot := one_mul _
    · have : x = ac.image_overshoot_point := le_antisymm hxop (not_lt.mp hxo)
      rw [this, bounce_eval_overshoot ac hb hos]

theorem bounce_settle_antitone (ac : AnimationConfig)
    (hb : ac.image_bounce_enabled = true)
    (hos : ac.image_overshoot_point < ac.image_settle_point)
    (him : ac.image_intermediate_scale ≤ ac.image_max_overshoot) :
    AntitoneOn (bounceScale ac) (Set.Icc ac.image_overshoot_point ac.image_settle_point) := by
  have hwidth : 0 < ac.image_settle_point - ac.image_overshoot_point := by linarith
  have key : ∀ t, ac.image_overshoot_point ≤ t → t ≤ ac.image_settle_point →
      bounceScale ac t =
        ac.image_max_overshoot +
          (ac.image_intermediate_scale - ac.image_max_overshoot) *
            ((t - ac.image_overshoot_point) /
              (ac.image_settle_point - ac.image_overshoot_point)) := by
    intro t hge hle
    by_cases hlt : t < ac.image_settle_point
    · rw [bounce_eval_mid ac hb (not_lt.mpr hge) hlt]
      ring
    · have : t = ac.image_settle_point := le_antisymm hle (not_lt.mp hlt)
      subst this
      rw [bounce_eval_settle ac hb hos,
        div_self (by intro h; rw [sub_eq_zero] at h; linarith)]
      ring
  intro x hx y hy hxy
  rw [key x hx.1 hx.2, key y hy.1 hy.2]
  set qx := (x - ac.image_overshoot_point) /
    (ac.image_settle_point - ac.image_overshoot_point) with hqx
  set qy := (y - ac.image_overshoot_point) /
    (ac.image_settle_point - ac.image_overshoot_point) with hqy
  have hdiff : qy - qx = (y - x) / (ac.image_settle_point - ac.image_overshoot_point) := by
    rw [hqx, hqy, div_sub_div_same]
    congr 1
    ring
  have hd0 : 0 ≤ qy - qx := by
    rw [hdiff]
    exact div_nonneg (by linarith) (le_of_lt hwidth)
  have hprod : (ac.image_intermediate_scale - ac.image_max_overshoot) * (qy - qx) ≤ 0 :=
    mul_nonpos_iff.mpr (Or.inr ⟨by linarith, hd0⟩)
  rw [mul_sub] at hprod
  linarith

theorem imageScaleAt_zero (ac : AnimationConfig) (N : ℕ)
    (hb : ac.image_bounce_enabled = true)
    (hop : 0 < ac.image_overshoot_point) :
    imageScaleAt ac N 0 = 0 := by
  unfold imageScaleAt
  rw [show ((0 : ℕ) : ℝ) / (N : ℝ) = 0 by simp]
  rw [bounce_eval_grow ac hb hop]
  simp

theorem imageScaleAt_last (ac : AnimationConfig) (N : ℕ)
    (hb : ac.image_bounce_enabled = true) (hN : 0 < N)
    (hop1 : ac.image_overshoot_point < 1)
    (hsp : ac.image_settle_point < 1)
    (hpw : ac.image_easing_power ≠ 0) :
    imageScaleAt ac N N = 1 := by
  unfold imageScaleAt
  rw [div_self (by positivity)]
  rw [bounce_eval_one ac hb hop1 hsp hpw]
  simp

theorem imageScaleAt_nonneg (ac : AnimationConfig) (N k : ℕ) :
    0 ≤ imageScaleAt ac N k :=
  le_max_left 0 _

theorem textSlideOffset_zero (start_x end_x p : ℝ) (N : ℕ) :
    textSlideOffset start_x end_x p N 0 = start_x := by
  show start_x + (end_x - start_x) * (1 - (1 - ((0 : ℕ) : ℝ) / (N : ℝ)) ^ p) = start_x
  rw [show ((0 : ℕ) : ℝ) / (N : ℝ) = 0 by simp, sub_zero, Real.one_rpow]
  ring

theorem textSlideOffset_last (start_x end_x p : ℝ) (N : ℕ) (hN : 0 < N)
    (hp : p ≠ 0) :
    textSlideOffset start_x end_x p N N = end_x := by
  show start_x + (end_x - start_x) * (1 - (1 - (N : ℝ) / (N : ℝ)) ^ p) = end_x
  rw [div_self (by positivity), show (1 : ℝ) - 1 = 0 by ring, Real.zero_rpow hp]
  ring

theorem textSlideOffset_le (start_x end_x p : ℝ) (N i j : ℕ) (hp : 0 ≤ p)
    (hN : 0 < N) (hij : i ≤ j) (hjN : j ≤ N) (hse : start_x ≤ end_x) :
    textSlideOffset start_x end_x p N i ≤ textSlideOffset start_x end_x p N j := by
  show start_x + (end_x - start_x) * (1 - (1 - (i : ℝ) / (N : ℝ)) ^ p) ≤
    start_x + (end_x - start_x) * (1 - (1 - (j : ℝ) / (N : ℝ)) ^ p)
  have hNr : (0 : ℝ) < (N : ℝ) := by positivity
  have hti : (i : ℝ) / (N : ℝ) ≤ (j : ℝ) / (N : ℝ) := by
    gcongr

  have htj : (j : ℝ) / (N : ℝ) ≤ 1 := by
    rw [div_le_one hNr]
    exact_mod_cast hjN
  have heased := easedLe hp hti htj
  have := mul_le_mul_of_nonneg_left heased (by linarith : (0 : ℝ) ≤ end_x - start_x)
  linarith

/-! ### OBS call traces

A trace records, in order, the mutating control-surface calls and the
`asyncio.sleep` pauses a code path issues.  Read-only probes
(`get_scene_item_list`, `get_scene_item_id`) are modelled by the `Env`
oracle; a source missing from its scene makes the corresponding write
silently skipped, as in the source's try/except blocks. -/

structure Transform where
  positionX : Option ℝ := none
  positionY : Option ℝ := none
  scaleX : Option ℝ := none
  scaleY : Option ℝ := none

inductive InputArgs where
  | textSetting (s : String)
  | fileSetting (p : String)

inductive ObsCall where
  | setCurrentProgramScene (scene : String)
  | setSceneItemTransform (scene source : String) (t : Transform)
  | setInputSettings (input : String) (args : InputArgs)
  | setSceneItemEnabled (scene source : String) (enabled : Bool)
  | setSourceFilterEnabled (source filterName : String) (enabled : Bool)
  | triggerMediaInputAction (source action : String)
  | sleep (seconds : ℝ)

structure Env where
  sceneHas : String → String → Bool

structure TickerConfig where
  text_source : String := "TickerText"
  player_image_source : String := "TickerPlayerImage"
  event_image_source : String := "TickerEventImage"
  item_image_source : String := "TickerItemImage"
  location_image_source : String := "TickerLocationImage"

/-- One `obs_actions` entry; `text_update` templates are pre-parsed into
literal and placeholder parts (the raw `str.format` syntax is the external
`format` machinery). -/
inductive TemplatePart where
  | lit (s : String)
  | field (key : String)

inductive ActionConfig where
  | scene_switch (scene_name : String)
  | source_visibility (scene_name source_name : String) (visible : Bool)
  | text_update (source_name : String) (text_template : List TemplatePart)
  | filter_toggle (source_name filter_name : String) (enabled : Bool)
  | media_restart (source_name : String)

/-- The default `obs_actions` table from `load_config` (the `"{text}"`
templates become a single placeholder part). -/
def default_obs_actions : String → Option ActionConfig := fun event_type =>
  if event_type == "item_received" then
    some (ActionConfig.text_update "LastItemReceived" [TemplatePart.field "text"])
  else if event_type == "item_sent" then
    some (ActionConfig.text_update "LastItemSent" [TemplatePart.field "text"])
  else if event_type == "location_checked" then
    some (ActionConfig.text_update "LastLocationChecked" [TemplatePart.field "text"])
  else if event_type == "player_joined" then
    some (ActionConfig.text_update "PlayerStatus" [TemplatePart.field "text"])
  else if event_type == "player_left" then
    some (ActionConfig.text_update "PlayerStatus" [TemplatePart.field "text"])
  else if event_type == "goal_completed" then
    some (ActionConfig.scene_switch "GoalCompleted")
  else if event_type == "hint" then
    some (ActionConfig.text_update "LastHint" [TemplatePart.field "text"])
  else if event_type == "chat" then
    some (ActionConfig.text_update "LastChatMessage" [TemplatePart.field "text"])
  else if event_type == "server_message" then
    some (ActionConfig.text_update "ServerMessage" [TemplatePart.field "text"])
  else none

/-- The whole configuration slice that `trigger_obs_event` reads. -/
structure BridgeConfig where
  ticker_config : TickerConfig := {}
  animation_config : AnimationConfig := {}
  obs_actions : String → Option ActionConfig := default_obs_actions

/-- `set_source_position`: look the source up in the scene, then issue one
transform with the non-`None` coordinates (no call when the source is
missing or both coordinates are `None`). -/
def set_source_position (env : Env) (source_name scene_name : String)
    (x y : Option ℝ) : List ObsCall :=
  if env.sceneHas scene_name source_name then
    if x.isSome || y.isSome then
      [ObsCall.setSceneItemTransform scene_name source_name
        { positionX := x, positionY := y }]
    else []
  else []

/-- `set_source_scale`. -/
def set_source_scale (env : Env) (source_name scene_name : String)
    (scale_x scale_y : ℝ) : List ObsCall :=
  if env.sceneHas scene_name source_name then
    [ObsCall.setSceneItemTransform scene_name source_name
      { scaleX := some scale_x, scaleY := some scale_y }]
  else []

def image_source_list (tc : TickerConfig) : List String :=
  [tc.player_image_source, tc.event_image_source, tc.item_image_source,
   tc.location_image_source]

/-- `reset_ticker_positions`: text to its off-screen start, every (truthy)
image source to scale 0. -/
def reset_ticker_positions (env : Env) (tc : TickerConfig) (ac : AnimationConfig)
    (scene_name : String) : List ObsCall :=
  set_source_position env tc.text_source scene_name (some ac.text_start_x) none ++
    (image_source_list tc).flatMap (fun s =>
      if s ≠ "" then set_source_scale env s scene_name 0 0 else [])

/-- `update_ticker_content`: ticker text always, each image slot only when a
path was resolved; `item_name` takes priority over `location_name`
(`if`/`elif` in the source). -/
def update_ticker_content (fs : String → Bool) (dirs : ImageDirs)
    (tc : TickerConfig) (evt : EventData) : List ObsCall :=
  [ObsCall.setInputSettings tc.text_source
    (InputArgs.textSetting (evt.ticker_text.getD (evt.text.getD "")))] ++
  (match evt.player_name with
   | some n =>
     match get_player_image fs dirs n with
     | some p => [ObsCall.setInputSettings tc.player_image_source (InputArgs.fileSetting p)]
     | none => []
   | none => []) ++
  (match get_event_image fs dirs evt.event_type with
   | some p => [ObsCall.setInputSettings tc.event_image_source (InputArgs.fileSetting p)]
   | none => []) ++
  (match evt.item_name with
   | some n =>
     match get_item_image fs dirs n with
     | some p => [ObsCall.setInputSettings tc.item_image_source (InputArgs.fileSetting p)]
     | none => []
   | none =>
     match evt.location_name with
     | some n =>
       match get_location_image fs dirs n with
       | some p =>
         [ObsCall.setInputSettings tc.location_image_source (InputArgs.fileSetting p)]
       | none => []
     | none => [])

/-- `animate_text_slide_fixed`: one transform per step, a pause after every
step but the last. -/
noncomputable def animate_text_slide_fixed (env : Env)
    (source_name scene_name : String) (ac : AnimationConfig)
    (duration : ℝ) (steps : ℕ) : List ObsCall :=
  if env.sceneHas scene_name source_name then
    (List.range (steps + 1)).flatMap (fun step =>
      ObsCall.setSceneItemTransform scene_name source_name
          { positionX := some (textSlideOffset ac.text_start_x ac.text_end_x
              ac.text_easing_power steps step) } ::
        if step < steps then [ObsCall.sleep (duration / (steps : ℝ))] else [])
  else []

/-- `animate_image_pop_fixed`: optional initial stagger pause, then one
scale transform per step with pauses between. -/
noncomputable def animate_image_pop_fixed (env : Env)
    (source_name scene_name : String) (ac : AnimationConfig)
    (duration : ℝ) (steps : ℕ) (delay : ℝ) : List ObsCall :=
  (if delay > 0 then [ObsCall.sleep delay] else []) ++
  (if env.sceneHas scene_name source_name then
    (List.range (steps + 1)).flatMap (fun step =>
      ObsCall.setSceneItemTransform scene_name source_name
          { scaleX := some (imageScaleAt ac steps step),
            scaleY := some (imageScaleAt ac steps step) } ::
        if step < steps then [ObsCall.sleep (duration / (steps : ℝ))] else [])
  else [])

/-- The `i`-th image pop task of `animate_ticker_to_final_positions`
(duration shortened to 80%, stagger `i * 0.15`; skipped for falsy names). -/
noncomputable def image_pop_task (env : Env) (tc : TickerConfig)
    (ac : AnimationConfig) (scene_name : String) (duration : ℝ) (steps : ℕ)
    (i : ℕ) : List ObsCall :=
  let s := (image_source_list tc).getD i ""
  if s ≠ "" then
    animate_image_pop_fixed env s scene_name ac (duration * 0.8) steps ((i : ℝ) * 0.15)
  else []

/-- `zs` is an order-preserving merge of `xs` and `ys` (the possible
instruction orders of two concurrently running `asyncio` tasks). -/
inductive Interleave {α : Type} : List α → List α → List α → Prop where
  | nil : Interleave [] [] []
  | left {xs ys zs : List α} (x : α) (h : Interleave xs ys zs) :
      Interleave (x :: xs) ys (x :: zs)
  | right {xs ys zs : List α} (y : α) (h : Interleave xs ys zs) :
      Interleave xs (y :: ys) (y :: zs)

theorem interleave_countP {α : Type} {p : α → Bool} :
    ∀ {xs ys zs : List α}, Interleave xs ys zs →
      zs.countP p = xs.countP p + ys.countP p := by
  intro xs ys zs h
  induction h with
  | nil => simp
  | left x h ih => simp only [List.countP_cons, ih]; omega
  | right y h ih => simp only [List.countP_cons, ih]; omega

theorem interleave_nil_left {α : Type} (ys : List α) : Interleave [] ys ys := by
  induction ys with
  | nil => exact Interleave.nil
  | cons y t ih => exact Interleave.right y ih

theorem interleave_append {α : Type} (xs ys : List α) :
    Interleave xs ys (xs ++ ys) := by
  induction xs with
  | nil => simpa using interleave_nil_left ys
  | cons x t ih => exact Interleave.left x ih

/-- The concurrent body of `animate_ticker_to_final_positions`: some merge of
the text-slide task and the four (staggered) image pop tasks. -/
def animate_body (env : Env) (tc : TickerConfig) (ac : AnimationConfig)
    (scene_name : String) (duration : ℝ) (steps : ℕ) (body : List ObsCall) : Prop :=
  ∃ b1 b2 b3,
    Interleave (animate_text_slide_fixed env tc.text_source scene_name ac duration steps)
      (image_pop_task env tc ac scene_name duration steps 0) b1 ∧
    Interleave b1 (image_pop_task env tc ac scene_name duration steps 1) b2 ∧
    Interleave b2 (image_pop_task env tc ac scene_name duration steps 2) b3 ∧
    Interleave b3 (image_pop_task env tc ac scene_name duration steps 3) body

/-- `animate_ticker_to_final_positions`: switch to the main scene, wait
0.1 s, then run the five animation tasks concurrently. -/
def AnimateToFinal (env : Env) (tc : TickerConfig) (ac : AnimationConfig)
    (scene_name : String) (duration : ℝ) (steps : ℕ) (tr : List ObsCall) : Prop :=
  ∃ body, animate_body env tc ac scene_name duration steps body ∧
    tr = ObsCall.setCurrentProgramScene scene_name :: ObsCall.sleep 0.1 :: body

/-- `update_ticker_display` (for a connected client): reset, content, short
pause, animate — or content only when animations are disabled. -/
def UpdateTickerDisplay (env : Env) (fs : String → Bool) (dirs : ImageDirs)
    (tc : TickerConfig) (ac : AnimationConfig) (evt : EventData)
    (tr : List ObsCall) : Prop :=
  if ac.enable_animations then
    ∃ anim, AnimateToFinal env tc ac ac.scene_name ac.animation_duration
      ac.animation_steps anim ∧
      tr = reset_ticker_positions env tc ac ac.scene_name ++
        update_ticker_content fs dirs tc evt ++ [ObsCall.sleep 0.1] ++ anim
  else tr = update_ticker_content fs dirs tc evt

/-- `handle_goal_completion_celebration`: best-effort celebration text, switch
to the celebration scene, sleep the celebration duration, switch back. -/
def handle_goal_completion_celebration (ac : AnimationConfig) (evt : EventData) :
    List ObsCall :=
  if ac.enable_celebrations then
    [ObsCall.setInputSettings ac.celebration_text_source
      (InputArgs.textSetting
        ("🎉 " ++ evt.player_name.getD "Someone" ++ " COMPLETED THEIR GOAL! 🎉")),
     ObsCall.setCurrentProgramScene ac.celebration_scene,
     ObsCall.sleep ac.celebration_duration,
     ObsCall.setCurrentProgramScene ac.scene_name]
  else []

/-- The `obs_actions` dispatch of the standalone `trigger_obs_event`
("kept for backward compatibility"): only `scene_switch` and
`source_visibility` branches exist there; other action kinds fall through
with no call. -/
def standalone_router (env : Env) (obs_actions : String → Option ActionConfig)
    (event_type : String) : List ObsCall :=
  match obs_actions event_type with
  | none => []
  | some (ActionConfig.scene_switch scene_name) =>
      [ObsCall.setCurrentProgramScene scene_name]
  | some (ActionConfig.source_visibility scene_name source_name visible) =>
      if env.sceneHas scene_name source_name then
        [ObsCall.setSceneItemEnabled scene_name source_name visible]
      else []
  | some _ => []

/-- `trigger_obs_event` of `archipelago_obs_standalone.py` for a connected
client: ticker display update, then the goal-completion celebration for
`goal_completed`, then the `obs_actions` dispatch.  (Without a client the
function logs and returns with no call.) -/
def TriggerStandalone (env : Env) (fs : String → Bool) (dirs : ImageDirs)
    (cfg : BridgeConfig) (evt : EventData) (tr : List ObsCall) : Prop :=
  ∃ disp, UpdateTickerDisplay env fs dirs cfg.ticker_config cfg.animation_config
      evt disp ∧
    tr = disp ++
      (if evt.event_type == "goal_completed" then
        handle_goal_completion_celebration cfg.animation_config evt
      else []) ++
      standalone_router env cfg.obs_actions evt.event_type

/-- Python dict access `event_data.get(key)` for the template renderer. -/
def event_data_get (evt : EventData) : String → Option String := fun key =>
  if key == "event_type" then some evt.event_type
  else if key == "raw_line" then some evt.raw_line
  else if key == "receiving_player" then evt.receiving_player
  else if key == "sending_player" then evt.sending_player
  else if key == "item_name" then evt.item_name
  else if key == "location_name" then evt.location_name
  else if key == "player_name" then evt.player_name
  else if key == "hint_text" then evt.hint_text
  else if key == "message" then evt.message
  else if key == "timestamp_str" then evt.timestamp_str
  else if key == "text" then evt.text
  else if key == "ticker_text" then evt.ticker_text
  else none

/-- `text_template.format(**event_data)`: concatenate the parts, failing
(like `KeyError`) when a placeholder key is absent. -/
def renderTemplate : List TemplatePart → (String → Option String) → Option String
  | [], _ => some ""
  | TemplatePart.lit s :: rest, f =>
    (renderTemplate rest f).map (fun r => s ++ r)
  | TemplatePart.field k :: rest, f =>
    match f k with
    | some v => (renderTemplate rest f).map (fun r => v ++ r)
    | none => none

/-- Placeholder for Python's `str(event_data)` dict repr used in the template
fallback; its exact text is irrelevant to every property proved here. -/
def event_data_repr (evt : EventData) : String :=
  evt.raw_line

/-- `trigger_obs_event` of `archipelago_obs_bridge.py` for a connected
client: a pure `obs_actions` dispatch with all five action kinds and no
ticker machinery. -/
def trigger_obs_event_bridge (obs_actions : String → Option ActionConfig)
    (evt : EventData) : List ObsCall :=
  match obs_actions evt.event_type with
  | none => []
  | some (ActionConfig.scene_switch scene_name) =>
      [ObsCall.setCurrentProgramScene scene_name]
  | some (ActionConfig.source_visibility scene_name source_name visible) =>
      [ObsCall.setSceneItemEnabled scene_name source_name visible]
  | some (ActionConfig.text_update source_name text_template) =>
      let formatted :=
        match renderTemplate text_template (event_data_get evt) with
        | some t => t
        | none => evt.event_type ++ ": " ++ (evt.text.getD (event_data_repr evt))
      [ObsCall.setInputSettings source_name (InputArgs.textSetting formatted)]
  | some (ActionConfig.filter_toggle source_name filter_name enabled) =>
      [ObsCall.setSourceFilterEnabled source_name filter_name enabled]
  | some (ActionConfig.media_restart source_name) =>
      [ObsCall.triggerMediaInputAction source_name "restart"]

/-! ### Scene-switch accounting -/

def isSwitchTo (scene : String) : ObsCall → Bool
  | ObsCall.setCurrentProgramScene s => s == scene
  | _ => false

/-- No call of the trace is a scene switch (to any scene). -/
def sceneFree (l : List ObsCall) : Prop :=
  ∀ c ∈ l, ∀ s, isSwitchTo s c = false

theorem sceneFree_nil : sceneFree [] := by
  intro c hc
  simp at hc

theorem sceneFree_append {a b : List ObsCall} (ha : sceneFree a)
    (hb : sceneFree b) : sceneFree (a ++ b) := by
  intro c hc s
  rcases List.mem_append.mp hc with h | h
  · exact ha c h s
  · exact hb c h s

theorem sceneFree_single_input (i : String) (a : InputArgs) :
    sceneFree [ObsCall.setInputSettings i a] := by
  intro c hc s
  simp at hc
  subst hc
  rfl

theorem sceneFree_set_source_position (env : Env) (sn sc : String)
    (x y : Option ℝ) : sceneFree (set_source_position env sn sc x y) := by
  intro c hc s
  unfold set_source_position at hc
  split at hc
  · split at hc
    · simp at hc
      subst hc
      rfl
    · simp at hc
  · simp at hc

theorem sceneFree_set_source_scale (env : Env) (sn sc : String) (sx sy : ℝ) :
    sceneFree (set_source_scale env sn sc sx sy) := by
  intro c hc s
  unfold set_source_scale at hc
  split at hc
  · simp at hc
    subst hc
    rfl
  · simp at hc

theorem sceneFree_reset (env : Env) (tc : TickerConfig) (ac : AnimationConfig)
    (scene : String) : sceneFree (reset_ticker_positions env tc ac scene) := by
  unfold reset_ticker_positions
  apply sceneFree_append (sceneFree_set_source_position env tc.text_source scene _ _)
  intro c hc s
  rw [List.mem_flatMap] at hc
  obtain ⟨src, -, hc⟩ := hc
  split at hc
  · exact sceneFree_set_source_scale env src scene 0 0 c hc s
  · simp at hc

theorem sceneFree_content (fs : String → Bool) (dirs : ImageDirs)
    (tc : TickerConfig) (evt : EventData) :
    sceneFree (update_ticker_content fs dirs tc evt) := by
  unfold update_ticker_content
  apply sceneFree_append
  apply sceneFree_append
  apply sceneFree_append
  · exact sceneFree_single_input _ _
  · rcases h : evt.player_name with - | n <;> simp only [h]
    · exact sceneFree_nil
    · rcases h2 : get_player_image fs dirs n with - | p <;> simp only [h2]
      · exact sceneFree_nil
      · exact sceneFree_single_input _ _
  · rcases h : get_event_image fs dirs evt.event_type with - | p <;> simp only [h]
    · exact sceneFree_nil
    · exact sceneFree_single_input _ _
  · rcases h : evt.item_name with - | n <;> simp only [h]
    · rcases h2 : evt.location_name with - | n <;> simp only [h2]
      · exact sceneFree_nil
      · rcases h3 : get_location_image fs dirs n with - | p <;> simp only [h3]
        · exact sceneFree_nil
        · exact sceneFree_single_input _ _
    · rcases h2 : get_item_image fs dirs n with - | p <;> simp only [h2]
      · exact sceneFree_nil
      · exact sceneFree_single_input _ _

theorem sceneFree_text_slide (env : Env) (sn sc : String) (ac : AnimationConfig)
    (d : ℝ) (steps : ℕ) :
    sceneFree (animate_text_slide_fixed env sn sc ac d steps) := by
  intro c hc s
  unfold animate_text_slide_fixed at hc
  split at hc
  · rw [List.mem_flatMap] at hc
    obtain ⟨step, -, hc⟩ := hc
    rcases List.mem_cons.mp hc with rfl | hc
    · rfl
    · split at hc
      · simp at hc
        subst hc
        rfl
      · simp at hc
  · simp at hc

theorem sceneFree_image_pop (env : Env) (sn sc : String) (ac : AnimationConfig)
    (d : ℝ) (steps : ℕ) (delay : ℝ) :
    sceneFree (animate_image_pop_fixed env sn sc ac d steps delay) := by
  unfold animate_image_pop_fixed
  apply sceneFree_append
  · intro c hc s
    split at hc
    · simp at hc
      subst hc
      rfl
    · simp at hc
  · intro c hc s
    split at hc
    · rw [List.mem_flatMap] at hc
      obtain ⟨step, -, hc⟩ := hc
      rcases List.mem_cons.mp hc with rfl | hc
      · rfl
      · split at hc
        · simp at hc
          subst hc
          rfl
        · simp at hc
    · simp at hc

theorem sceneFree_image_pop_task (env : Env) (tc : TickerConfig)
    (ac : AnimationConfig) (sc : String) (d : ℝ) (steps i : ℕ) :
    sceneFree (image_pop_task env tc ac sc d steps i) := by
  show sceneFree (if (image_source_list tc).getD i "" ≠ "" then
    animate_image_pop_fixed env ((image_source_list tc).getD i "") sc ac
      (d * 0.8) steps ((i : ℝ) * 0.15) else [])
  split
  · exact sceneFree_image_pop env _ sc ac _ steps _
  · exact sceneFree_nil

theorem countP_eq_zero_of_sceneFree {l : List ObsCall} (h : sceneFree l)
    (s : String) : l.countP (isSwitchTo s) = 0 :=
  List.countP_eq_zero.mpr (fun c hc => by simp [h c hc s])

theorem animate_body_countP {env : Env} {tc : TickerConfig}
    {ac : AnimationConfig} {sc : String} {d : ℝ} {steps : ℕ}
    {body : List ObsCall} (h : animate_body env tc ac sc d steps body)
    (s : String) : body.countP (isSwitchTo s) = 0 := by
  obtain ⟨b1, b2, b3, h1, h2, h3, h4⟩ := h
  have e1 := interleave_countP (p := isSwitchTo s) h1
  have e2 := interleave_countP (p := isSwitchTo s) h2
  have e3 := interleave_countP (p := isSwitchTo s) h3
  have e4 := interleave_countP (p := isSwitchTo s) h4
  rw [countP_eq_zero_of_sceneFree (sceneFree_text_slide env _ sc ac d steps) s,
    countP_eq_zero_of_sceneFree (sceneFree_image_pop_task env tc ac sc d steps 0) s] at e1
  rw [e1, countP_eq_zero_of_sceneFree (sceneFree_image_pop_task env tc ac sc d steps 1) s] at e2
  rw [e2, countP_eq_zero_of_sceneFree (sceneFree_image_pop_task env tc ac sc d steps 2) s] at e3
  rw [e3, countP_eq_zero_of_sceneFree (sceneFree_image_pop_task env tc ac sc d steps 3) s] at e4
  simpa using e4

/-! ### Shared concrete inputs for the claim instances -/

def env0 : Env := ⟨fun _ _ => false⟩

def fs0 : String → Bool := fun _ => false

def dirs0 : ImageDirs :=
  ⟨"images/players", "images/events", "images/items", "images/locations"⟩

/-! ### Claim C1 -/

/-- C1 (amended form): for an event type with no `obs_actions` entry, the
bridge variant's `trigger_obs_event` issues zero control-surface calls, and
the standalone variant's `obs_actions` dispatch likewise contributes zero
calls (the standalone function still performs the ticker display update
outside that dispatch). -/
theorem c1_router_noop (obs_actions : String → Option ActionConfig)
    (evt : EventData) (env : Env) (h : obs_actions evt.event_type = none) :
    trigger_obs_event_bridge obs_actions evt = [] ∧
    standalone_router env obs_actions evt.event_type = [] := by
  constructor
  · unfold trigger_obs_event_bridge
    rw [h]
  · unfold standalone_router
    rw [h]

/-- C1 witness: a concrete action table with no entry and a concrete event. -/
theorem c1_router_noop_witness :
    trigger_obs_event_bridge (fun _ => none) { event_type := "raw_message" } = [] ∧
    standalone_router env0 (fun _ => none) "raw_message" = [] :=
  c1_router_noop (fun _ => none) { event_type := "raw_message" } env0 rfl

def c1ce_cfg : BridgeConfig :=
  { animation_config := { enable_animations := false } }

def c1ce_evt : EventData :=
  { event_type := "raw_message", raw_line := "found an item",
    text := some "found an item", ticker_text := some "found an item" }

/-- C1 counterexample: under the default action table (which has no
`raw_message` entry) the standalone `trigger_obs_event` still issues a ticker
text update — the trace is not empty, so the event is not log-only. -/
theorem c1_counterexample :
    c1ce_cfg.obs_actions "raw_message" = none ∧
    TriggerStandalone env0 fs0 dirs0 c1ce_cfg c1ce_evt
      [ObsCall.setInputSettings "TickerText" (InputArgs.textSetting "found an item")] ∧
    [ObsCall.setInputSettings "TickerText" (InputArgs.textSetting "found an item")] ≠
      ([] : List ObsCall) := by
  refine ⟨rfl, ?_, by simp⟩
  refine ⟨update_ticker_content fs0 dirs0 c1ce_cfg.ticker_config c1ce_evt, ?_, ?_⟩
  · unfold UpdateTickerDisplay
    rw [if_neg (by simp [c1ce_cfg])]
  · rfl

/-! ### Claim C2 -/

/-- C2 (amended form): for a `goal_completed` event with celebrations
enabled, when the action table has no `goal_completed` entry and the
celebration scene differs from the main scene, the full trigger trace ends
with the celebration block — celebration text, exactly one switch to the
celebration scene, a sleep of exactly the configured duration, then the
switch back to the main scene — and no other switch to the celebration scene
occurs anywhere in the trace. -/
theorem c2_celebration_sequence (env : Env) (fs : String → Bool)
    (dirs : ImageDirs) (cfg : BridgeConfig) (evt : EventData)
    (tr : List ObsCall)
    (hevt : evt.event_type = "goal_completed")
    (hcel : cfg.animation_config.enable_celebrations = true)
    (hact : cfg.obs_actions "goal_completed" = none)
    (hne : cfg.animation_config.celebration_scene ≠ cfg.animation_config.scene_name)
    (htr : TriggerStandalone env fs dirs cfg evt tr) :
    ∃ pre, tr = pre ++
        [ObsCall.setInputSettings cfg.animation_config.celebration_text_source
          (InputArgs.textSetting ("🎉 " ++ evt.player_name.getD "Someone" ++
            " COMPLETED THEIR GOAL! 🎉")),
         ObsCall.setCurrentProgramScene cfg.animation_config.celebration_scene,
         ObsCall.sleep cfg.animation_config.celebration_duration,
         ObsCall.setCurrentProgramScene cfg.animation_config.scene_name] ∧
      pre.countP (isSwitchTo cfg.animation_config.celebration_scene) = 0 ∧
      tr.countP (isSwitchTo cfg.animation_config.celebration_scene) = 1 := by
  obtain ⟨disp, hdisp, rfl⟩ := htr
  have hdisp0 :
      disp.countP (isSwitchTo cfg.animation_config.celebration_scene) = 0 := by
    unfold UpdateTickerDisplay at hdisp
    by_cases hanim : cfg.animation_config.enable_animations = true
    · rw [if_pos hanim] at hdisp
      obtain ⟨anim, ⟨body, hbody, rfl⟩, rfl⟩ := hdisp
      have hb := animate_body_countP hbody cfg.animation_config.celebration_scene
      have hmain : isSwitchTo cfg.animation_config.celebration_scene
          (ObsCall.setCurrentProgramScene cfg.animation_config.scene_name) = false := by
        simp [isSwitchTo]
        exact fun hc => hne hc.symm
      simp only [List.countP_append, List.countP_cons, List.countP_nil, hb, hmain,
        countP_eq_zero_of_sceneFree (sceneFree_reset env _ _ _) _,
        countP_eq_zero_of_sceneFree (sceneFree_content fs dirs _ _) _]
      simp [isSwitchTo]
    · rw [if_neg hanim] at hdisp
      subst hdisp
      exact countP_eq_zero_of_sceneFree (sceneFree_content fs dirs _ _) _
  rw [hevt] at *
  have hcelebration : handle_goal_completion_celebration cfg.animation_config evt =
      [ObsCall.setInputSettings cfg.animation_config.celebration_text_source
        (InputArgs.textSetting ("🎉 " ++ evt.player_name.getD "Someone" ++
          " COMPLETED THEIR GOAL! 🎉")),
       ObsCall.setCurrentProgramScene cfg.animation_config.celebration_scene,
       ObsCall.sleep cfg.animation_config.celebration_duration,
       ObsCall.setCurrentProgramScene cfg.animation_config.scene_name] := by
    unfold handle_goal_completion_celebration
    rw [if_pos hcel]
  refine ⟨disp, ?_, hdisp0, ?_⟩
  · rw [standalone_router, hact]
    simp [hcelebration]
  · rw [standalone_router, hact]
    simp only [List.append_nil, if_pos rfl, List.countP_append, hdisp0,
      hcelebration, List.countP_cons, List.countP_nil]
    have hmain : isSwitchTo cfg.animation_config.celebration_scene
        (ObsCall.setCurrentProgramScene cfg.animation_config.scene_name) = false := by
      simp [isSwitchTo]
      exact fun hc => hne hc.symm
    simp [isSwitchTo, hmain]
    exact fun hc => hne hc.symm

def c2w_cfg : BridgeConfig :=
  { animation_config := { enable_animations := false },
    obs_actions := fun _ => none }

def c2w_evt : EventData :=
  { event_type := "goal_completed", player_name := some "Alice",
    text := some "Alice completed their goal!",
    ticker_text := some "🎉 Alice COMPLETED THEIR GOAL! 🎉" }

def c2w_tr : List ObsCall :=
  update_ticker_content fs0 dirs0 {} c2w_evt ++
    handle_goal_completion_celebration c2w_cfg.animation_config c2w_evt

/-- C2 witness: the amended sequencing at a concrete configuration. -/
theorem c2_celebration_sequence_witness :
    ∃ pre, c2w_tr = pre ++
        [ObsCall.setInputSettings c2w_cfg.animation_config.celebration_text_source
          (InputArgs.textSetting ("🎉 " ++ c2w_evt.player_name.getD "Someone" ++
            " COMPLETED THEIR GOAL! 🎉")),
         ObsCall.setCurrentProgramScene c2w_cfg.animation_config.celebration_scene,
         ObsCall.sleep c2w_cfg.animation_config.celebration_duration,
         ObsCall.setCurrentProgramScene c2w_cfg.animation_config.scene_name] ∧
      pre.countP (isSwitchTo c2w_cfg.animation_config.celebration_scene) = 0 ∧
      c2w_tr.countP (isSwitchTo c2w_cfg.animation_config.celebration_scene) = 1 :=
  c2_celebration_sequence env0 fs0 dirs0 c2w_cfg c2w_evt c2w_tr rfl rfl rfl
    (by decide)
    ⟨update_ticker_content fs0 dirs0 c2w_cfg.ticker_config c2w_evt,
      by unfold UpdateTickerDisplay; rw [if_neg (by simp [c2w_cfg])], rfl⟩

def c2ce_cfg : BridgeConfig :=
  { animation_config := { enable_animations := false } }

def c2ce_evt : EventData :=
  { event_type := "goal_completed", player_name := some "Alice",
    text := some "Alice completed their goal!",
    ticker_text := some "🎉 Alice COMPLETED THEIR GOAL! 🎉" }

def c2ce_tr : List ObsCall :=
  update_ticker_content fs0 dirs0 {} c2ce_evt ++
    handle_goal_completion_celebration c2ce_cfg.animation_config c2ce_evt ++
    standalone_router env0 c2ce_cfg.obs_actions "goal_completed"

/-- C2 counterexample: under the default action table (which maps
`goal_completed` to a `scene_switch` to `"GoalCompleted"`, the default
celebration scene), processing a `goal_completed` event yields two switches
to the celebration scene, not exactly one — the router's legacy switch fires
after the celebration has already returned to the main scene. -/
theorem c2_counterexample :
    c2ce_cfg.animation_config.enable_celebrations = true ∧
    c2ce_cfg.animation_config.celebration_scene = "GoalCompleted" ∧
    TriggerStandalone env0 fs0 dirs0 c2ce_cfg c2ce_evt c2ce_tr ∧
    c2ce_tr.countP (isSwitchTo "GoalCompleted") = 2 := by
  refine ⟨rfl, rfl, ?_, ?_⟩
  · refine ⟨update_ticker_content fs0 dirs0 c2ce_cfg.ticker_config c2ce_evt, ?_, rfl⟩
    unfold UpdateTickerDisplay
    rw [if_neg (by simp [c2ce_cfg])]
  · rfl

/-! ### Claim C3 -/

/-- C3: the three-phase bounce curve grows monotonically over the first
phase and reaches exactly `image_max_overshoot` at `image_overshoot_point`,
settles back monotonically to exactly `image_intermediate_scale` at
`image_settle_point`, and eases to exactly `1.0` at progress `1`. -/
theorem c3_bounce_curve (ac : AnimationConfig)
    (hb : ac.image_bounce_enabled = true)
    (hm : 0 ≤ ac.image_max_overshoot)
    (hos : ac.image_overshoot_point < ac.image_settle_point)
    (hsp : ac.image_settle_point < 1)
    (hpw : ac.image_easing_power ≠ 0)
    (him : ac.image_intermediate_scale ≤ ac.image_max_overshoot) :
    MonotoneOn (bounceScale ac) (Set.Icc 0 ac.image_overshoot_point) ∧
    bounceScale ac ac.image_overshoot_point = ac.image_max_overshoot ∧
    AntitoneOn (bounceScale ac)
      (Set.Icc ac.image_overshoot_point ac.image_settle_point) ∧
    bounceScale ac ac.image_settle_point = ac.image_intermediate_scale ∧
    bounceScale ac 1 = 1 :=
  ⟨bounce_grow_monotone ac hb hm hos hsp,
   bounce_eval_overshoot ac hb hos,
   bounce_settle_antitone ac hb hos him,
   bounce_eval_settle ac hb hos,
   bounce_eval_one ac hb (lt_trans hos hsp) hsp hpw⟩

/-- C3 witness: the default animation parameters. -/
theorem c3_bounce_curve_witness :
    MonotoneOn (bounceScale ({} : AnimationConfig))
      (Set.Icc 0 ({} : AnimationConfig).image_overshoot_point) ∧
    bounceScale ({} : AnimationConfig) ({} : AnimationConfig).image_overshoot_point =
      ({} : AnimationConfig).image_max_overshoot ∧
    AntitoneOn (bounceScale ({} : AnimationConfig))
      (Set.Icc ({} : AnimationConfig).image_overshoot_point
        ({} : AnimationConfig).image_settle_point) ∧
    bounceScale ({} : AnimationConfig) ({} : AnimationConfig).image_settle_point =
      ({} : AnimationConfig).image_intermediate_scale ∧
    bounceScale ({} : AnimationConfig) 1 = 1 :=
  c3_bounce_curve {} rfl
    (show (0 : ℝ) ≤ 1.4 by norm_num)
    (show (0.6 : ℝ) < 0.8 by norm_num)
    (show (0.8 : ℝ) < 1 by norm_num)
    (show (2.0 : ℝ) ≠ 0 by norm_num)
    (show (1.1 : ℝ) ≤ 1.4 by norm_num)

/-! ### Claim C4 -/

/-- C4 (amended form): for bounce parameters with breakpoints in `(0,1)` and
a *strictly positive* easing power, the clamped per-step scale sequence is 0
at step 0, exactly 1 at the final step, and never negative. -/
theorem c4_bounce_seq (ac : AnimationConfig) (N : ℕ)
    (hb : ac.image_bounce_enabled = true) (hN : 1 ≤ N)
    (hop0 : 0 < ac.image_overshoot_point)
    (hop1 : ac.image_overshoot_point < 1)
    (_hsp0 : 0 < ac.image_settle_point)
    (hsp1 : ac.image_settle_point < 1)
    (hpw : 0 < ac.image_easing_power)
    (_hm : 0 ≤ ac.image_max_overshoot)
    (_him : 0 ≤ ac.image_intermediate_scale) :
    imageScaleAt ac N 0 = 0 ∧ imageScaleAt ac N N = 1 ∧
    ∀ k, 0 ≤ imageScaleAt ac N k :=
  ⟨imageScaleAt_zero ac N hb hop0,
   imageScaleAt_last ac N hb (by omega) hop1 hsp1 (ne_of_gt hpw),
   fun k => imageScaleAt_nonneg ac N k⟩

/-- C4 witness: the default bounce parameters at two steps. -/
theorem c4_bounce_seq_witness :
    imageScaleAt ({} : AnimationConfig) 2 0 = 0 ∧
    imageScaleAt ({} : AnimationConfig) 2 2 = 1 ∧
    ∀ k, 0 ≤ imageScaleAt ({} : AnimationConfig) 2 k :=
  c4_bounce_seq {} 2 rfl (by omega)
    (show (0 : ℝ) < 0.6 by norm_num)
    (show (0.6 : ℝ) < 1 by norm_num)
    (show (0 : ℝ) < 0.8 by norm_num)
    (show (0.8 : ℝ) < 1 by norm_num)
    (show (0 : ℝ) < 2.0 by norm_num)
    (show (0 : ℝ) ≤ 1.4 by norm_num)
    (show (0 : ℝ) ≤ 1.1 by norm_num)

theorem bounce_eval_final (ac : AnimationConfig)
    (hb : ac.image_bounce_enabled = true) {t : ℝ}
    (h1 : ¬ t < ac.image_overshoot_point)
    (h2 : ¬ t < ac.image_settle_point) :
    bounceScale ac t =
      ac.image_intermediate_scale *
          (1 - (1 - (1 - (t - ac.image_settle_point) /
            (1 - ac.image_settle_point)) ^ ac.image_easing_power)) +
        1.0 * (1 - (1 - (t - ac.image_settle_point) /
          (1 - ac.image_settle_point)) ^ ac.image_easing_power) := by
  simp only [bounceScale, hb, if_true]
  rw [if_neg h1, if_neg h2]

def c4ce_ac : AnimationConfig := { image_easing_power := 0 }

/-- C4 counterexample: with the (non-negative) easing power `0` and the
default bounce parameters, the final step of a one-step animation lands at
`0 ** 0 = 1`, so the scale is the intermediate scale `1.1`, not `1.0`. -/
theorem c4_counterexample :
    c4ce_ac.image_bounce_enabled = true ∧
    (0 : ℝ) ≤ c4ce_ac.image_easing_power ∧
    0 < c4ce_ac.image_overshoot_point ∧ c4ce_ac.image_overshoot_point < 1 ∧
    0 < c4ce_ac.image_settle_point ∧ c4ce_ac.image_settle_point < 1 ∧
    0 ≤ c4ce_ac.image_max_overshoot ∧ 0 ≤ c4ce_ac.image_intermediate_scale ∧
    imageScaleAt c4ce_ac 1 1 = 1.1 ∧ (1.1 : ℝ) ≠ 1 := by
  have hfin : bounceScale c4ce_ac 1 = 1.1 := by
    rw [bounce_eval_final c4ce_ac rfl
      (show ¬ (1 : ℝ) < 0.6 by norm_num) (show ¬ (1 : ℝ) < 0.8 by norm_num)]
    rw [show ((1 : ℝ) - c4ce_ac.image_settle_point) /
        (1 - c4ce_ac.image_settle_point) = 1 from by
      rw [show c4ce_ac.image_settle_point = (0.8 : ℝ) from rfl]
      norm_num]
    rw [show c4ce_ac.image_easing_power = (0 : ℝ) from rfl, sub_self,
      Real.rpow_zero]
    rw [show c4ce_ac.image_intermediate_scale = (1.1 : ℝ) from rfl]
    norm_num
  refine ⟨rfl, le_refl 0, show (0 : ℝ) < 0.6 by norm_num,
    show (0.6 : ℝ) < 1 by norm_num, show (0 : ℝ) < 0.8 by norm_num,
    show (0.8 : ℝ) < 1 by norm_num, show (0 : ℝ) ≤ 1.4 by norm_num,
    show (0 : ℝ) ≤ 1.1 by norm_num, ?_, by norm_num⟩
  unfold imageScaleAt
  rw [show ((1 : ℕ) : ℝ) / ((1 : ℕ) : ℝ) = 1 by norm_num, hfin]
  norm_num

/-! ### Claim C5 -/

/-- C5: the ease-out text slide offsets are exactly `start_x` at step 0,
exactly `end_x` at step `N`, and monotonic from `start_x` to `end_x` (in the
direction of travel) over the steps. -/
theorem c5_text_slide (start_x end_x p : ℝ) (N i j : ℕ)
    (hp : 1 < p) (hN : 0 < N) (hij : i ≤ j) (hjN : j ≤ N) :
    textSlideOffset start_x end_x p N 0 = start_x ∧
    textSlideOffset start_x end_x p N N = end_x ∧
    (start_x ≤ end_x →
      textSlideOffset start_x end_x p N i ≤ textSlideOffset start_x end_x p N j) ∧
    (end_x ≤ start_x →
      textSlideOffset start_x end_x p N j ≤ textSlideOffset start_x end_x p N i) := by
  refine ⟨textSlideOffset_zero start_x end_x p N,
    textSlideOffset_last start_x end_x p N hN (by linarith), ?_, ?_⟩
  · intro hse
    exact textSlideOffset_le start_x end_x p N i j (by linarith) hN hij hjN hse
  · intro hse
    have h := textSlideOffset_le end_x start_x p N i j (by linarith) hN hij hjN hse
    unfold textSlideOffset at h ⊢
    set ei := 1 - (1 - (i : ℝ) / (N : ℝ)) ^ p
    set ej := 1 - (1 - (j : ℝ) / (N : ℝ)) ^ p
    simp only at h ⊢
    linarith

/-- C5 witness: the default slide parameters (`-500 → 200`, exponent 2.5)
over 25 steps, at steps 3 ≤ 7. -/
theorem c5_text_slide_witness :
    textSlideOffset (-500) 200 2.5 25 0 = -500 ∧
    textSlideOffset (-500) 200 2.5 25 25 = 200 ∧
    ((-500 : ℝ) ≤ 200 →
      textSlideOffset (-500) 200 2.5 25 3 ≤ textSlideOffset (-500) 200 2.5 25 7) ∧
    ((200 : ℝ) ≤ -500 →
      textSlideOffset (-500) 200 2.5 25 7 ≤ textSlideOffset (-500) 200 2.5 25 3) :=
  c5_text_slide (-500) 200 2.5 25 3 7 (by norm_num) (by omega) (by omega) (by omega)

/-! ### Claim C6 -/

/-- C6: for every line the dispatch loop emits at most one event, and
whenever some rule matches, the emitted event comes from the first matching
rule in declared order — every rule before it fails — so a line matching two
rules always resolves to the earlier one.  (`parse_and_trigger_events` is a
function, so the outcome is the same on every run.) -/
theorem c6_first_match (rules : List PatternRule) (line : String) :
    (parse_and_trigger_events rules line).length ≤ 1 ∧
    (∀ (j : ℕ) (rj : PatternRule), rules[j]? = some rj →
      (rj.pattern line).isSome →
      ∃ (k : ℕ) (rk : PatternRule) (gs : List String),
        rules[k]? = some rk ∧ k ≤ j ∧ rk.pattern line = some gs ∧
        (∀ (m : ℕ) (rm : PatternRule), m < k → rules[m]? = some rm →
          rm.pattern line = none) ∧
        parse_and_trigger_events rules line = [⟨rk.event_type, gs, line⟩]) :=
  ⟨parse_and_trigger_length rules line,
   parse_and_trigger_first_match rules line⟩

def c6w_rules : List PatternRule :=
  [⟨"item_received", fun _ => some ["A", "B", "C"]⟩,
   ⟨"location_checked", fun _ => some ["A", "B"]⟩]

/-- C6 witness: two always-matching rules; the first one wins. -/
theorem c6_first_match_witness :
    (parse_and_trigger_events c6w_rules "x").length ≤ 1 ∧
    ∃ (k : ℕ) (rk : PatternRule) (gs : List String),
      c6w_rules[k]? = some rk ∧ k ≤ 1 ∧ rk.pattern "x" = some gs ∧
      (∀ (m : ℕ) (rm : PatternRule), m < k → c6w_rules[m]? = some rm →
        rm.pattern "x" = none) ∧
      parse_and_trigger_events c6w_rules "x" = [⟨rk.event_type, gs, "x"⟩] :=
  ⟨(c6_first_match c6w_rules "x").1,
   (c6_first_match c6w_rules "x").2 1
     ⟨"location_checked", fun _ => some ["A", "B"]⟩ rfl rfl⟩

/-! ### Claim C7 -/

/-- C7: the compound identifier of the spec canonicalizes to exactly
`"GuvnahBRC"`; in general, for a clean leading segment `a`, canonicalization
of `a ++ "__" ++ anything` keeps exactly `a`; and every player-name field
built by `handle_parsed_event` goes through `extract_player_name`. -/
theorem c7_player_canonicalization :
    extract_player_name "GuvnahBRC__Team__1__viewing_Bomb_Rush_Cyberfunk" =
      "GuvnahBRC" ∧
    (∀ (a b : List Char), ¬ ['_', '_'] <:+: (a ++ ['_']) → '(' ∉ a →
      '[' ∉ a → pyStrip a = a → extractCore (a ++ ['_', '_'] ++ b) = a) ∧
    (∀ (groups : List String) (raw : String),
      (handle_parsed_event "item_received" groups raw).receiving_player =
        some (extract_player_name (groups.getD 0 "")) ∧
      (handle_parsed_event "item_received" groups raw).sending_player =
        some (extract_player_name (groups.getD 2 "")) ∧
      (handle_parsed_event "item_received" groups raw).player_name =
        some (extract_player_name (groups.getD 0 "")) ∧
      (handle_parsed_event "item_sent" groups raw).sending_player =
        some (extract_player_name (groups.getD 0 "")) ∧
      (handle_parsed_event "item_sent" groups raw).receiving_player =
        some (extract_player_name (groups.getD 2 "")) ∧
      (handle_parsed_event "item_sent" groups raw).player_name =
        some (extract_player_name (groups.getD 0 "")) ∧
      (handle_parsed_event "location_checked" groups raw).player_name =
        some (extract_player_name (groups.getD 0 "")) ∧
      (handle_parsed_event "player_joined" groups raw).player_name =
        some (extract_player_name (groups.getD 0 "")) ∧
      (handle_parsed_event "player_left" groups raw).player_name =
        some (extract_player_name (groups.getD 0 "")) ∧
      (handle_parsed_event "goal_completed" groups raw).player_name =
        some (extract_player_name (groups.getD 0 "")) ∧
      (handle_parsed_event "chat" groups raw).player_name =
        some (extract_player_name (groups.getD 1 ""))) := by
  refine ⟨by decide, extractCore_append, ?_⟩
  intro groups raw
  exact ⟨rfl, rfl, rfl, rfl, rfl, rfl, rfl, rfl, rfl, rfl, rfl⟩

/-- C7 witness: the general leading-segment fact at a concrete split. -/
theorem c7_player_canonicalization_witness :
    extract_player_name "GuvnahBRC__Team__1__viewing_Bomb_Rush_Cyberfunk" =
      "GuvnahBRC" ∧
    extractCore ("Alice".data ++ ['_', '_'] ++ "Team__1".data) = "Alice".data :=
  ⟨(c7_player_canonicalization).1,
   (c7_player_canonicalization).2.1 "Alice".data "Team__1".data
     (by decide) (by decide) (by decide) (by decide)⟩

/-! ### Claim C8 -/

/-- C8: with no tables (or an id absent from every table) the resolvers
return exactly `"Item_{id}"` / `"Location_{id}"`; when some table contains
the id, the first table (in iteration order) containing it wins.  The Lean
functions are total, mirroring that the Python lookups never raise. -/
theorem c8_resolver_fallback :
    (∀ id : Int, resolve_item_name none id = "Item_" ++ toString id ∧
      resolve_location_name none id = "Location_" ++ toString id) ∧
    (∀ (tables : List (String × List (Int × String))) (id : Int),
      (∀ g ∈ tables, tableGet g.2 id = none) →
      resolve_item_name (some tables) id = "Item_" ++ toString id ∧
      resolve_location_name (some tables) id = "Location_" ++ toString id) ∧
    (∀ (pre : List (String × List (Int × String)))
      (g : String × List (Int × String))
      (post : List (String × List (Int × String))) (id : Int) (n : String),
      (∀ x ∈ pre, tableGet x.2 id = none) → tableGet g.2 id = some n →
      resolve_item_name (some (pre ++ g :: post)) id = n ∧
      resolve_location_name (some (pre ++ g :: post)) id = n) := by
  refine ⟨fun id => ⟨rfl, rfl⟩, ?_, ?_⟩
  · intro tables id h
    constructor <;>
      simp [resolve_item_name, resolve_location_name, lookupGames_none h]
  · intro pre g post id n hpre hg
    constructor <;>
      simp [resolve_item_name, resolve_location_name, lookupGames_first hpre hg]

/-- C8 witness: a concrete table; id 42 is absent (placeholder), id 7 is
present ("Bow"). -/
theorem c8_resolver_fallback_witness :
    (resolve_item_name (some [("GameA", [((1 : Int), "Bow")])]) 42 =
        "Item_" ++ toString (42 : Int) ∧
      resolve_location_name (some [("GameA", [((1 : Int), "Bow")])]) 42 =
        "Location_" ++ toString (42 : Int)) ∧
    (resolve_item_name (some ([] ++ ("GameA", [((7 : Int), "Bow")]) :: [])) 7 =
        "Bow" ∧
      resolve_location_name (some ([] ++ ("GameA", [((7 : Int), "Bow")]) :: [])) 7 =
        "Bow") :=
  ⟨(c8_resolver_fallback).2.1 [("GameA", [(1, "Bow")])] 42 (by decide),
   (c8_resolver_fallback).2.2 [] ("GameA", [(7, "Bow")]) [] 7 "Bow"
     (by decide) (by decide)⟩

/-! ### Claim C9 -/

/-- C9: player/item/location images resolve through the ordered candidate
list (sanitized name, lowercased sanitized name, per-slot shared default);
event-type images have no fallback (absent file ⇒ no path); and the content
update sets a file on an image source only when the corresponding lookup
found a path. -/
theorem c9_image_lookup :
    (∀ (fs : String → Bool) (dirs : ImageDirs) (n : String),
      get_player_image fs dirs n = lookupCandidates fs
        [pathJoin dirs.players (sanitize_name n ++ ".png"),
         pathJoin dirs.players ((sanitize_name n).toLower ++ ".png"),
         pathJoin dirs.players "default_player.png"] ∧
      get_item_image fs dirs n = lookupCandidates fs
        [pathJoin dirs.items (sanitize_name n ++ ".png"),
         pathJoin dirs.items ((sanitize_name n).toLower ++ ".png"),
         pathJoin dirs.items "default_item.png"] ∧
      get_location_image fs dirs n = lookupCandidates fs
        [pathJoin dirs.locations (sanitize_name n ++ ".png"),
         pathJoin dirs.locations ((sanitize_name n).toLower ++ ".png"),
         pathJoin dirs.locations "default_location.png"]) ∧
    (∀ (fs : String → Bool) (dirs : ImageDirs) (ty : String),
      ¬ fs (pathJoin dirs.events (ty ++ ".png")) = true →
      get_event_image fs dirs ty = none) ∧
    (∀ (fs : String → Bool) (dirs : ImageDirs) (tc : TickerConfig)
      (evt : EventData) (c : ObsCall), c ∈ update_ticker_content fs dirs tc evt →
      ∀ (i f : String), c = ObsCall.setInputSettings i (InputArgs.fileSetting f) →
      (∃ n, evt.player_name = some n ∧ get_player_image fs dirs n = some f ∧
        i = tc.player_image_source) ∨
      (get_event_image fs dirs evt.event_type = some f ∧
        i = tc.event_image_source) ∨
      (∃ n, evt.item_name = some n ∧ get_item_image fs dirs n = some f ∧
        i = tc.item_image_source) ∨
      (∃ n, evt.item_name = none ∧ evt.location_name = some n ∧
        get_location_image fs dirs n = some f ∧
        i = tc.location_image_source)) := by
  refine ⟨?_, ?_, ?_⟩
  · intro fs dirs n
    exact ⟨get_player_image_eq_candidates fs dirs n,
      get_item_image_eq_candidates fs dirs n,
      get_location_image_eq_candidates fs dirs n⟩
  · intro fs dirs ty h
    unfold get_event_image
    rw [if_neg h]
  · intro fs dirs tc evt c hc i f hcf
    subst hcf
    unfold update_ticker_content at hc
    rcases List.mem_append.mp hc with hc | hc
    · rcases List.mem_append.mp hc with hc | hc
      · rcases List.mem_append.mp hc with hc | hc
        · simp at hc
        · rcases h1 : evt.player_name with - | n <;> simp only [h1] at hc
          · simp at hc
          · rcases h2 : get_player_image fs dirs n with - | p <;>
              simp only [h2] at hc
            · simp at hc
            · simp at hc
              exact Or.inl ⟨n, rfl, h2.trans (congrArg some hc.2).symm, hc.1⟩
      · rcases h1 : get_event_image fs dirs evt.event_type with - | p <;>
          simp only [h1] at hc
        · simp at hc
        · simp at hc
          exact Or.inr (Or.inl ⟨(congrArg some hc.2).symm, hc.1⟩)
    · rcases h1 : evt.item_name with - | n <;> simp only [h1] at hc
      · rcases h2 : evt.location_name with - | n <;> simp only [h2] at hc
        · simp at hc
        · rcases h3 : get_location_image fs dirs n with - | p <;>
            simp only [h3] at hc
          · simp at hc
          · simp at hc
            exact Or.inr (Or.inr (Or.inr ⟨n, rfl, rfl, h3.trans (congrArg some hc.2).symm, hc.1⟩))
      · rcases h2 : get_item_image fs dirs n with - | p <;>
          simp only [h2] at hc
        · simp at hc
        · simp at hc
          exact Or.inr (Or.inr (Or.inl ⟨n, rfl, h2.trans (congrArg some hc.2).symm, hc.1⟩))

/-- C9 witness: the candidate-list refinement at a concrete name and the
no-fallback behaviour of event images on an empty file system. -/
theorem c9_image_lookup_witness :
    (get_player_image fs0 dirs0 "Alice" = lookupCandidates fs0
        [pathJoin dirs0.players (sanitize_name "Alice" ++ ".png"),
         pathJoin dirs0.players ((sanitize_name "Alice").toLower ++ ".png"),
         pathJoin dirs0.players "default_player.png"] ∧
      get_item_image fs0 dirs0 "Alice" = lookupCandidates fs0
        [pathJoin dirs0.items (sanitize_name "Alice" ++ ".png"),
         pathJoin dirs0.items ((sanitize_name "Alice").toLower ++ ".png"),
         pathJoin dirs0.items "default_item.png"] ∧
      get_location_image fs0 dirs0 "Alice" = lookupCandidates fs0
        [pathJoin dirs0.locations (sanitize_name "Alice" ++ ".png"),
         pathJoin dirs0.locations ((sanitize_name "Alice").toLower ++ ".png"),
         pathJoin dirs0.locations "default_location.png"]) ∧
    get_event_image fs0 dirs0 "chat" = none :=
  ⟨(c9_image_lookup).1 fs0 dirs0 "Alice",
   (c9_image_lookup).2.1 fs0 dirs0 "chat" (by decide)⟩

/-! ### Claim C10 -/

/-- C10: player-name canonicalization is idempotent — the result carries
none of the `'__'`, `'('`, `'['` delimiters and no surrounding whitespace,
so extracting again changes nothing. -/
theorem c10_extract_idempotent (s : String) :
    extract_player_name (extract_player_name s) = extract_player_name s :=
  congrArg String.mk (extractCore_idem s.data)

/-! ### Sequential stream processing

`process_archipelago_output` awaits each line's full
`parse → trigger (→ celebration)` before reading the next line, so the trace
of a stream of events is the concatenation of per-event traces — no other
event's calls interleave with a given event's sequence (in particular not
with a celebration pause). -/

inductive ProcessStream (env : Env) (fs : String → Bool) (dirs : ImageDirs)
    (cfg : BridgeConfig) : List EventData → List ObsCall → Prop where
  | nil : ProcessStream env fs dirs cfg [] []
  | cons {evt : EventData} {tr : List ObsCall} {evts : List EventData}
      {rest : List ObsCall}
      (h1 : TriggerStandalone env fs dirs cfg evt tr)
      (h2 : ProcessStream env fs dirs cfg evts rest) :
      ProcessStream env fs dirs cfg (evt :: evts) (tr ++ rest)

/-- Any event of a processed stream owns one contiguous block of the stream
trace, satisfying its own single-event trace relation. -/
theorem processStream_split (env : Env) (fs : String → Bool) (dirs : ImageDirs)
    (cfg : BridgeConfig) (evt : EventData) :
    ∀ (evts1 evts2 : List EventData) (str : List ObsCall),
      ProcessStream env fs dirs cfg (evts1 ++ evt :: evts2) str →
      ∃ t1 tr t2, str = t1 ++ tr ++ t2 ∧
        TriggerStandalone env fs dirs cfg evt tr := by
  intro evts1
  induction evts1 with
  | nil =>
    intro evts2 str hps
    cases hps with
    | cons h1 h2 =>
      rename_i tr0 rest0
      exact ⟨[], tr0, rest0, rfl, h1⟩
  | cons e es ih =>
    intro evts2 str hps
    cases hps with
    | cons h1 h2 =>
      rename_i tr0 rest0
      obtain ⟨t1, tr, t2, rfl, htr⟩ := ih evts2 _ h2
      refine ⟨tr0 ++ t1, tr, t2, ?_, htr⟩
      simp
